import Mathlib

/-!
Verification development for the convention-conversion and orientation
utilities of the mosaic repository (src/warpkit/utilities.py).

Embedding notes.
* Floating point sample values, voxel sizes and readout times are modelled
  by `ℚ`; the claims under study only concern signs, exact scale factors and
  which errors are raised, never rounding.  numpy's float division by zero
  produces non-finite values without raising; the model uses `ℚ` where
  division by zero yields `0`, and no claim depends on the value produced at
  a zero divisor, only on the absence of a raised error.
* A `nib.Nifti1Image` is modelled by `NDImage`: `shape` is the array shape,
  `data` models the float array exposed by `get_fdata()` as a total function
  on index lists (only values at in-bounds indices are meaningful), `zooms`
  models `header.get_zooms()`, `affine` the 4x4 affine and `intent` the
  header intent code.
* Python exceptions are modelled by `Err`, named after the specification's
  error taxonomy: the `ValueError`s of the shape checks are `shapeError`,
  the `KeyError`/`ValueError` raised for an unknown direction or convention
  name is `configurationError`, and an out-of-bounds numpy indexing error is
  `indexError`.
* `convert_warp` is modelled for an input that is already in RAS
  orientation: there `as_reoriented` returns the very same image object,
  `get_fdata()` returns (and caches) the image's own float array, and
  `squeeze()` is a view of it, so the in-place component writes of
  `convert_warp` write through to the input's exposed array.  The model
  returns the pair of the call's result and the post-call state of the input
  image (`viewWriteBack` maps the writes on the squeezed view back through
  the view to the input's array).  All shape validation and the two
  convention-name checks happen before or independently of reorientation in
  the source, so the error results are orientation-independent.
* The orientation round trip (nibabel `io_orientation`, `ornt_transform`,
  `apply_orientation`, `inv_ornt_aff`, `as_reoriented`) is modelled on 3D
  volumes (`Volume`) whose affine is a signed permutation with positive
  zooms, the class of "arbitrary axis ordering and axis signs" images the
  round-trip claim quantifies over; on that class `io_orientation`'s
  SVD-based computation reduces to picking, per column, the axis of largest
  absolute value and its sign, which is how `io_orientation` is modelled.
-/

set_option maxHeartbeats 1000000

/-- Error classes raised by the utilities, named after the specification's
taxonomy (see the embedding notes above). -/
inductive Err where
  | configurationError : String → Err
  | shapeError : String → Err
  | indexError : Err
  deriving DecidableEq

/-- Model of an in-memory `nib.Nifti1Image` (see the embedding notes). -/
structure NDImage where
  shape : List Nat
  data : List Nat → ℚ
  affine : Matrix (Fin 4) (Fin 4) ℚ
  zooms : Nat → ℚ
  intent : String

/-- `True` iff the call returned without raising. -/
def resOk {α : Type} (x : Except Err α) : Bool :=
  match x with
  | .ok _ => true
  | .error _ => false

/-- The `AXIS_MAP` dict of utilities.py: maps the twelve direction/axis
names to axis codes. -/
def AXIS_MAP : List (String × Nat) :=
  [("x", 0), ("y", 1), ("z", 2), ("x-", 0), ("y-", 1), ("z-", 2),
   ("i", 0), ("j", 1), ("k", 2), ("i-", 0), ("j-", 1), ("k-", 2)]

/-- The `WARP_ITK_FLIPS` dict of utilities.py: the per-component sign triple
of each convention, as a function from component index to sign. -/
def WARP_ITK_FLIPS : List (String × (Nat → ℚ)) :=
  [("itk", fun _ => 1),
   ("fsl", fun c => if c = 0 then -1 else 1),
   ("ants", fun c => if c = 0 ∨ c = 1 then -1 else 1),
   ("afni", fun c => if c = 0 ∨ c = 1 then -1 else 1)]

/-- `field_maps_to_displacement_maps` of utilities.py.  A dict lookup
failure (`KeyError`) is the taxonomy's ConfigurationError carrying the
offending key. -/
def field_maps_to_displacement_maps (field_maps : NDImage)
    (total_readout_time : ℚ) (phase_encoding_direction : String) :
    Except Err NDImage :=
  match AXIS_MAP.lookup phase_encoding_direction with
  | none => .error (.configurationError phase_encoding_direction)
  | some axis_code =>
    let voxel_size := field_maps.zooms axis_code
    let voxel_size :=
      if phase_encoding_direction.data.contains (Char.ofNat 45) then
        -voxel_size else voxel_size
    let voxel_size := if axis_code = 0 ∨ axis_code = 1 then -voxel_size else voxel_size
    .ok { field_maps with
          data := fun idx => field_maps.data idx * total_readout_time * voxel_size }

/-- `displacement_maps_to_field_maps` of utilities.py.  The source divides
with no zero check: numpy would emit non-finite values silently; in the `ℚ`
model a zero divisor yields `0`.  No error is ever raised apart from the
direction lookup. -/
def displacement_maps_to_field_maps (displacement_maps : NDImage)
    (total_readout_time : ℚ) (phase_encoding_direction : String)
    (flip_sign : Bool) : Except Err NDImage :=
  match AXIS_MAP.lookup phase_encoding_direction with
  | none => .error (.configurationError phase_encoding_direction)
  | some axis_code =>
    let voxel_size := displacement_maps.zooms axis_code
    let voxel_size :=
      if phase_encoding_direction.data.contains (Char.ofNat 45) then
        -voxel_size else voxel_size
    let voxel_size := if axis_code = 0 ∨ axis_code = 1 then -voxel_size else voxel_size
    let base : List Nat → ℚ := fun idx =>
      displacement_maps.data idx / (total_readout_time * voxel_size)
    .ok { displacement_maps with
          data := if flip_sign then (fun idx => base idx * (-1)) else base }

/-- `np.squeeze` on a shape: removes all axes of size 1. -/
def squeezeList (shape : List Nat) : List Nat := shape.filter (fun d => d != 1)

/-- Index correspondence of the squeezed view: maps an index into the full
array to the index of the same element in the squeezed view. -/
def squeezeIdx : List Nat → List Nat → List Nat
  | [], _ => []
  | s :: st, idx =>
    if s = 1 then squeezeIdx st idx.tail
    else idx.headD 0 :: squeezeIdx st idx.tail

/-- Index correspondence of the squeezed view, the other way: maps an index
into the squeezed view to the index of the same element in the full array
(singleton axes contribute index 0). -/
def unsqueezeIdx : List Nat → List Nat → List Nat
  | [], _ => []
  | s :: st, idx =>
    if s = 1 then 0 :: unsqueezeIdx st idx
    else idx.headD 0 :: unsqueezeIdx st idx.tail

/-- One in-place component write `warp_data[..., c] = warp_data[..., c] * f`
on the squeezed view. -/
def updLast (d : List Nat → ℚ) (c : Nat) (f : ℚ) : List Nat → ℚ :=
  fun idx => if idx.getLastD 0 = c then d idx * f else d idx

/-- The three in-place component writes of one sign triple, in source order.
Writing component `c` into a last axis of size at most `c` raises a numpy
IndexError; the writes preceding the failing one have already happened, so
the data as mutated so far is returned alongside the error. -/
def applyFlips (trailing : Nat) (f : Nat → ℚ) (d : List Nat → ℚ) :
    (List Nat → ℚ) × Option Err :=
  if trailing ≤ 0 then (d, some .indexError) else
  let d0 := updLast d 0 (f 0)
  if trailing ≤ 1 then (d0, some .indexError) else
  let d1 := updLast d0 1 (f 1)
  if trailing ≤ 2 then (d1, some .indexError) else
  (updLast d1 2 (f 2), none)

/-- The shape validation block of `convert_warp` (utilities.py lines
409-419), exactly as written: for a rank-5 input it raises precisely when
the 4th axis is a singleton AND the last axis size is nonzero (Python
truthiness of `in_warp.shape[-1]`), the condition its own error message
contradicts; the last-axis-size-3 check exists only in the rank-4 branch. -/
def convert_warp_validate (shape : List Nat) : Option Err :=
  if shape.length ≠ 4 then
    if shape.length ≠ 5 then
      some (.shapeError "Input warp must be 4D or 5D.")
    else
      if shape.getD 3 0 = 1 ∧ shape.getLastD 0 ≠ 0 then
        some (.shapeError "Input warp must have singleton dimension in 4th axis and size in last axis.")
      else none
  else
    if shape.getLastD 0 ≠ 3 then
      some (.shapeError "Warp must have size 3 in last axis.")
    else none

/-- Write-back through the squeezed view: the in-place writes of
`convert_warp` happen on `in_warp_ras.get_fdata().squeeze()`, a view of the
input's own cached array when the input is already in RAS orientation, so
after the call the input exposes the written data. -/
def viewWriteBack (img : NDImage) (d : List Nat → ℚ) : NDImage :=
  { img with data := fun idx => d (squeezeIdx img.shape idx) }

/-- `convert_warp` of utilities.py, modelled for an input already in RAS
orientation (see the embedding notes).  Returns the call's result together
with the post-call state of the input image. -/
def convert_warp (in_warp : NDImage) (in_type out_type : String) :
    (Except Err NDImage) × NDImage :=
  match convert_warp_validate in_warp.shape with
  | some e => (.error e, in_warp)
  | none =>
    let sq := squeezeList in_warp.shape
    let trailing := sq.getLastD 0
    let warp_data : List Nat → ℚ := fun idx =>
      in_warp.data (unsqueezeIdx in_warp.shape idx)
    match WARP_ITK_FLIPS.lookup in_type with
    | none =>
      (.error (.configurationError ("Input type " ++ in_type ++ " not recognized")), in_warp)
    | some in_flips =>
      let r1 := applyFlips trailing in_flips warp_data
      match r1.2 with
      | some e => (.error e, viewWriteBack in_warp r1.1)
      | none =>
        match WARP_ITK_FLIPS.lookup out_type with
        | none =>
          (.error (.configurationError ("Output type " ++ out_type ++ " not recognized")),
           viewWriteBack in_warp r1.1)
        | some out_flips =>
          let r2 := applyFlips trailing out_flips r1.1
          match r2.2 with
          | some e => (.error e, viewWriteBack in_warp r2.1)
          | none =>
            let out_img : NDImage :=
              if out_type = "afni" ∨ out_type = "ants" then
                { shape := sq.dropLast ++ [1, sq.getLastD 0]
                  data := fun idx => r2.1 (idx.dropLast.dropLast ++ [idx.getLastD 0])
                  affine := in_warp.affine
                  zooms := in_warp.zooms
                  intent := "vector" }
              else
                { shape := sq
                  data := r2.1
                  affine := in_warp.affine
                  zooms := in_warp.zooms
                  intent := "vector" }
            (.ok out_img, viewWriteBack in_warp r2.1)

/-- Converting from `a` to `b` and the result back from `b` to `a`; the
round trip the specification's invariant is about. -/
def convertTwice (w : NDImage) (a b : String) : Except Err NDImage :=
  match (convert_warp w a b).1 with
  | .error e => .error e
  | .ok w2 => (convert_warp w2 b a).1

/-- `displacement_map_to_field` of utilities.py: embeds the scalar map at
the component of `axis` (other components zero), tags the header (of the
input image: `set_intent` mutates `displacement_map.header`) with vector
intent, and hands to `convert_warp` with `in_type="itk"`.  Returns the
result together with the post-call state of the input image. -/
def displacement_map_to_field (displacement_map : NDImage)
    (axis : String) (format : String) : (Except Err NDImage) × NDImage :=
  match AXIS_MAP.lookup axis with
  | none => (.error (.configurationError axis), displacement_map)
  | some axis_code =>
    let new_data : List Nat → ℚ := fun idx =>
      if idx.getLast? = some axis_code then displacement_map.data idx.dropLast else 0
    let warp : NDImage :=
      { shape := displacement_map.shape ++ [3]
        data := new_data
        affine := displacement_map.affine
        zooms := displacement_map.zooms
        intent := "vector" }
    ((convert_warp warp "itk" format).1, { displacement_map with intent := "vector" })

/-- An orientation in nibabel's `ornt` format restricted to 3 spatial axes:
entry `i` is the output axis input axis `i` maps to, with its flip sign. -/
abbrev Ornt := Fin 3 → Fin 3 × ℚ

/-- `nib.orientations.axcodes2ornt("RAS")`: the identity orientation. -/
def rasOrnt : Ornt := fun i => (i, 1)

/-- `np.argmax` over the three absolute column entries (first maximum
wins, as in numpy). -/
def argmax3 (c : Fin 3 → ℚ) : Fin 3 :=
  if c 1 ≤ c 0 ∧ c 2 ≤ c 0 then 0 else if c 2 ≤ c 1 then 1 else 2

/-- `nib.orientations.io_orientation`, modelled on affines whose upper-left
block has orthogonal columns (one dominant entry per column): output axis =
argmax of the column's absolute values, sign = sign of that entry. -/
def io_orientation (A : Matrix (Fin 4) (Fin 4) ℚ) : Ornt := fun i =>
  let j := argmax3 fun r => |A r.castSucc i.castSucc|
  (j, if A j.castSucc i.castSucc < 0 then -1 else 1)

/-- `nib.orientations.ornt_transform`: for each start entry, the first end
entry with the same output axis, composing flips (for valid orientations
the final branch is always a genuine match). -/
def ornt_transform (start_ornt end_ornt : Ornt) : Ornt := fun i =>
  if (end_ornt 0).1 = (start_ornt i).1 then (0, (end_ornt 0).2 * (start_ornt i).2)
  else if (end_ornt 1).1 = (start_ornt i).1 then (1, (end_ornt 1).2 * (start_ornt i).2)
  else (2, (end_ornt 2).2 * (start_ornt i).2)

/-- `np.argsort` of a permutation of `Fin 3` (first match wins, matching
numpy's stable sort). -/
def invPerm (f : Fin 3 → Fin 3) : Fin 3 → Fin 3 := fun k =>
  if f 0 = k then 0 else if f 1 = k then 1 else 2

/-- A 3D volumetric image: shape, sample array (total function; only
in-bounds values are meaningful) and 4x4 affine. -/
structure Volume where
  shape : Fin 3 → ℕ
  data : (Fin 3 → ℕ) → ℚ
  affine : Matrix (Fin 4) (Fin 4) ℚ

/-- The `-(shape - 1) / 2` centering translation of `inv_ornt_aff`. -/
def centerTrans (shape : Fin 3 → ℕ) (i : Fin 3) : ℚ :=
  -((shape i : ℚ) - 1) / 2

/-- The `undo_reorder` factor of `nib.orientations.inv_ornt_aff`:
`np.eye(4)` with rows selected by the output axes (row `i` is the basis row
of axis `ornt[i].0`, row 3 stays the last basis row). -/
def undo_reorder (ornt : Ornt) : Matrix (Fin 4) (Fin 4) ℚ :=
  Matrix.of fun r c =>
    if hr : (r : ℕ) < 3 then
      (if ((ornt ⟨r, hr⟩).1 : ℕ) = (c : ℕ) then 1 else 0)
    else
      (if (c : ℕ) = 3 then 1 else 0)

/-- The `undo_flip` factor of `nib.orientations.inv_ornt_aff`: the diagonal
of flip signs (1 in the corner) with the flip-centering translations
written into the last column. -/
def undo_flip (ornt : Ornt) (shape : Fin 3 → ℕ) : Matrix (Fin 4) (Fin 4) ℚ :=
  Matrix.of fun r c =>
    if hr : (r : ℕ) < 3 then
      if (c : ℕ) = (r : ℕ) then (ornt ⟨r, hr⟩).2
      else if (c : ℕ) = 3 then
        (ornt ⟨r, hr⟩).2 * centerTrans shape ⟨r, hr⟩ - centerTrans shape ⟨r, hr⟩
      else 0
    else
      (if (c : ℕ) = 3 then 1 else 0)

/-- `nib.orientations.inv_ornt_aff ornt shape = undo_flip @ undo_reorder`. -/
def inv_ornt_aff (ornt : Ornt) (shape : Fin 3 → ℕ) : Matrix (Fin 4) (Fin 4) ℚ :=
  undo_flip ornt shape * undo_reorder ornt

/-- The flip loop of `nib.orientations.apply_orientation`: flips every axis
whose orientation sign is -1. -/
def flipAxes (ornt : Ornt) (v : Volume) : Volume :=
  { v with data := fun idx =>
      v.data fun i => if (ornt i).2 = -1 then v.shape i - 1 - idx i else idx i }

/-- `np.transpose` with axis list `σ`: axis `k` of the result is axis `σ k`
of the argument. -/
def transposeVol (σ : Fin 3 → Fin 3) (v : Volume) : Volume :=
  { shape := fun k => v.shape (σ k)
    data := fun idx => v.data fun m => idx (invPerm σ m)
    affine := v.affine }

/-- `nib.orientations.apply_orientation`: flips, then the transpose by
`np.argsort(ornt[:, 0])`. -/
def apply_orientation (v : Volume) (ornt : Ornt) : Volume :=
  transposeVol (invPerm fun i => (ornt i).1) (flipAxes ornt v)

/-- `nib.spatialimages.SpatialImage.as_reoriented`: reorders the array and
composes the affine with `inv_ornt_aff ornt shape`. -/
def Volume.as_reoriented (v : Volume) (ornt : Ornt) : Volume :=
  { apply_orientation v ornt with affine := v.affine * inv_ornt_aff ornt v.shape }

/-- `get_ras_orient_transform` of utilities.py: the transform of the image's
orientation to RAS and its inverse. -/
def get_ras_orient_transform (v : Volume) : Ornt × Ornt :=
  (ornt_transform (io_orientation v.affine) rasOrnt,
   ornt_transform rasOrnt (io_orientation v.affine))

/-- An affine of "arbitrary axis ordering and axis signs": physical axis
`p c` of voxel axis `c`, sign `s c`, zoom `z c`, translation `t`. -/
def signedPermAffine (p : Equiv.Perm (Fin 3)) (s z t : Fin 3 → ℚ) :
    Matrix (Fin 4) (Fin 4) ℚ :=
  Matrix.of fun r c =>
    if hr : (r : ℕ) < 3 then
      if hc : (c : ℕ) < 3 then
        (if p ⟨c, hc⟩ = ⟨r, hr⟩ then s ⟨c, hc⟩ * z ⟨c, hc⟩ else 0)
      else t ⟨r, hr⟩
    else
      (if (c : ℕ) = 3 then 1 else 0)

/-- Exact equality of volumes: same shape, same affine, same array contents
(data agree at every in-bounds index). -/
def Volume.eqv (a b : Volume) : Prop :=
  a.shape = b.shape ∧ a.affine = b.affine ∧
    ∀ idx : Fin 3 → ℕ, (∀ i, idx i < a.shape i) → a.data idx = b.data idx

theorem applyFlips_of_le (trailing : ℕ) (h : 3 ≤ trailing) (f : ℕ → ℚ)
    (d : List ℕ → ℚ) :
    applyFlips trailing f d =
      (updLast (updLast (updLast d 0 (f 0)) 1 (f 1)) 2 (f 2), none) := by
  have h0 : ¬ trailing ≤ 0 := by omega
  have h1 : ¬ trailing ≤ 1 := by omega
  have h2 : ¬ trailing ≤ 2 := by omega
  simp [applyFlips, h0, h1, h2]

theorem squeezeList_no_singleton (shape : List ℕ) (h : ∀ d ∈ shape, d ≠ 1) :
    squeezeList shape = shape := by
  rw [squeezeList, List.filter_eq_self]
  intro a ha
  simpa using h a ha

theorem squeezeIdx_no_singleton :
    ∀ (shape idx : List ℕ), (∀ d ∈ shape, d ≠ 1) →
      idx.length = shape.length → squeezeIdx shape idx = idx := by
  intro shape
  induction shape with
  | nil =>
    intro idx _ hlen
    rw [List.length_nil, List.length_eq_zero] at hlen
    simp [squeezeIdx, hlen]
  | cons s st ih =>
    intro idx h hlen
    match idx with
    | [] => simp at hlen
    | i :: it =>
      have hs : s ≠ 1 := h s (by simp)
      simp only [squeezeIdx, if_neg hs, List.headD, List.tail]
      rw [ih it (fun d hd => h d (by simp [hd])) (by simpa using hlen)]

theorem unsqueezeIdx_no_singleton :
    ∀ (shape idx : List ℕ), (∀ d ∈ shape, d ≠ 1) →
      idx.length = shape.length → unsqueezeIdx shape idx = idx := by
  intro shape
  induction shape with
  | nil =>
    intro idx _ hlen
    rw [List.length_nil, List.length_eq_zero] at hlen
    simp [unsqueezeIdx, hlen]
  | cons s st ih =>
    intro idx h hlen
    match idx with
    | [] => simp at hlen
    | i :: it =>
      have hs : s ≠ 1 := h s (by simp)
      simp only [unsqueezeIdx, if_neg hs, List.headD, List.tail]
      rw [ih it (fun d hd => h d (by simp [hd])) (by simpa using hlen)]

/-- C1: the specification claims `convert(convert(w, A, B), B, A) == w`
exactly for every ordered pair of conventions.  The code's own 5D shape
check contradicts its error message: it raises precisely when the warp DOES
have a singleton 4th axis and a nonzero last axis, so the ants (and afni)
output of the first conversion is always rejected on the way back.  This
theorem evaluates the model at such a round trip: converting a 4D itk warp
to ants succeeds and produces the 5D shape (2,2,2,1,3), and converting that
result back raises the ShapeError whose message describes exactly the shape
the warp has. -/
theorem convert_warp_ants_roundtrip_raises :
    ((convert_warp ⟨[2, 2, 2, 3], fun _ => 1, 1, fun _ => 1, ""⟩ "itk" "ants").1).map
        NDImage.shape = .ok [2, 2, 2, 1, 3] ∧
    convertTwice ⟨[2, 2, 2, 3], fun _ => 1, 1, fun _ => 1, ""⟩ "itk" "ants" =
      .error (.shapeError
        "Input warp must have singleton dimension in 4th axis and size in last axis.") := by
  exact ⟨rfl, rfl⟩

/-- C2 counterexample: a 5D warp of shape (1,1,1,1,0) has a singleton 4th
axis and a trailing axis size different from 3, so the claim says the call
raises a ShapeError; in the code the validation condition
`shape[3] == 1 and shape[-1]` is false (the last size 0 is falsy), the
warp passes shape validation, and the later component write
`warp_data[..., 0]` fails with an IndexError instead. -/
theorem convert_warp_zero_trailing_index_error :
    (convert_warp ⟨[1, 1, 1, 1, 0], fun _ => 0, 1, fun _ => 1, ""⟩ "itk" "itk").1 =
      .error Err.indexError := by
  exact rfl

/-- C2 amended: `convert_warp` raises a ShapeError for every 4D input whose
trailing axis size is not 3; for every 5D input with a singleton 4th axis
and a NONZERO trailing axis size (whatever it is, 3 included); and for every
input whose rank is neither 4 nor 5.  (A 5D input with singleton 4th axis
and trailing size 0 instead passes validation and fails later with an
IndexError, see the counterexample.) -/
theorem convert_warp_shape_error_cases (img : NDImage) (t1 t2 : String) :
    (img.shape.length = 4 → img.shape.getLastD 0 ≠ 3 →
      (convert_warp img t1 t2).1 =
        .error (.shapeError "Warp must have size 3 in last axis.")) ∧
    (img.shape.length = 5 → img.shape.getD 3 0 = 1 → img.shape.getLastD 0 ≠ 0 →
      (convert_warp img t1 t2).1 =
        .error (.shapeError
          "Input warp must have singleton dimension in 4th axis and size in last axis.")) ∧
    (img.shape.length ≠ 4 → img.shape.length ≠ 5 →
      (convert_warp img t1 t2).1 =
        .error (.shapeError "Input warp must be 4D or 5D.")) := by
  refine ⟨fun h4 hl => ?_, fun h5 hs hnz => ?_, fun h4 h5 => ?_⟩
  · have hv : convert_warp_validate img.shape =
        some (.shapeError "Warp must have size 3 in last axis.") := by
      unfold convert_warp_validate
      rw [if_neg (by simp [h4]), if_pos hl]
    simp [convert_warp, hv]
  · have hv : convert_warp_validate img.shape =
        some (.shapeError
          "Input warp must have singleton dimension in 4th axis and size in last axis.") := by
      unfold convert_warp_validate
      rw [if_pos (by simp [h5]), if_neg (by simp [h5]), if_pos ⟨hs, hnz⟩]
    simp [convert_warp, hv]
  · have hv : convert_warp_validate img.shape =
        some (.shapeError "Input warp must be 4D or 5D.") := by
      unfold convert_warp_validate
      rw [if_pos h4, if_pos h5]
    simp [convert_warp, hv]

theorem convert_warp_shape_error_cases_witness :
    (convert_warp ⟨[2, 2, 2, 4], fun _ => 0, 1, fun _ => 1, ""⟩ "itk" "itk").1 =
        .error (.shapeError "Warp must have size 3 in last axis.") ∧
    (convert_warp ⟨[2, 2, 2, 1, 5], fun _ => 0, 1, fun _ => 1, ""⟩ "itk" "itk").1 =
        .error (.shapeError
          "Input warp must have singleton dimension in 4th axis and size in last axis.") ∧
    (convert_warp ⟨[2, 2, 2], fun _ => 0, 1, fun _ => 1, ""⟩ "itk" "itk").1 =
        .error (.shapeError "Input warp must be 4D or 5D.") :=
  ⟨(convert_warp_shape_error_cases ⟨[2, 2, 2, 4], fun _ => 0, 1, fun _ => 1, ""⟩
      "itk" "itk").1 rfl (by decide),
   (convert_warp_shape_error_cases ⟨[2, 2, 2, 1, 5], fun _ => 0, 1, fun _ => 1, ""⟩
      "itk" "itk").2.1 rfl rfl (by decide),
   (convert_warp_shape_error_cases ⟨[2, 2, 2], fun _ => 0, 1, fun _ => 1, ""⟩
      "itk" "itk").2.2 (by decide) (by decide)⟩

/-- C3 counterexample: the claim says a zero readout time, or a zero voxel
size on the resolved axis, raises an ArithmeticError.  Neither converter
contains any such check: with readout time 0 (first two conjuncts) and with
all-zero voxel sizes (last two), both calls return without raising. -/
theorem zero_readout_returns_ok :
    resOk (displacement_maps_to_field_maps
        ⟨[2, 2, 2], fun _ => 3, 1, fun _ => 1, ""⟩ 0 "j" false) = true ∧
    resOk (field_maps_to_displacement_maps
        ⟨[2, 2, 2], fun _ => 3, 1, fun _ => 1, ""⟩ 0 "j") = true ∧
    resOk (displacement_maps_to_field_maps
        ⟨[2, 2, 2], fun _ => 3, 1, fun _ => 0, ""⟩ 1 "j" false) = true ∧
    resOk (field_maps_to_displacement_maps
        ⟨[2, 2, 2], fun _ => 3, 1, fun _ => 0, ""⟩ 1 "j") = true := by
  exact ⟨rfl, rfl, rfl, rfl⟩

/-- C3 amended: neither converter validates the readout time or the voxel
size.  For every recognized direction they return a result with no error,
for every readout time and every voxel size (zero included):
`displacement_maps_to_field_maps` divides each sample by
`readoutTime * scaledVoxelSize` (numpy produces non-finite values on a zero
divisor rather than raising) and `field_maps_to_displacement_maps`
multiplies. -/
theorem field_converters_no_zero_check (img : NDImage) (t : ℚ) (dir : String)
    (fs : Bool) (a : ℕ) (h : AXIS_MAP.lookup dir = some a) :
    resOk (displacement_maps_to_field_maps img t dir fs) = true ∧
    resOk (field_maps_to_displacement_maps img t dir) = true := by
  constructor
  · simp [displacement_maps_to_field_maps, h, resOk]
  · simp [field_maps_to_displacement_maps, h, resOk]

theorem field_converters_no_zero_check_witness :
    resOk (displacement_maps_to_field_maps
        ⟨[2, 2, 2], fun _ => 3, 1, fun _ => 0, ""⟩ 0 "k-" true) = true ∧
    resOk (field_maps_to_displacement_maps
        ⟨[2, 2, 2], fun _ => 3, 1, fun _ => 0, ""⟩ 0 "k-") = true :=
  field_converters_no_zero_check ⟨[2, 2, 2], fun _ => 3, 1, fun _ => 0, ""⟩
    0 "k-" true 2 rfl

/-- C4 counterexample: the claim says the ConfigurationError for a bad
convention name is raised before any computation on the data.  With a valid
`in_type` ("fsl") and an invalid `out_type`, `convert_warp` reports the
ConfigurationError only after applying the in-type sign flips, which for an
RAS-oriented input write through the squeezed view into the input's own
array: the call errors, yet the input's exposed sample at (0,0,0, component
0) has already been negated from 1 to -1. -/
theorem convert_warp_out_type_error_after_mutation :
    (convert_warp ⟨[2, 2, 2, 3], fun _ => 1, 1, fun _ => 1, ""⟩ "fsl" "bogus").1 =
      .error (.configurationError "Output type bogus not recognized") ∧
    (convert_warp ⟨[2, 2, 2, 3], fun _ => 1, 1, fun _ => 1, ""⟩ "fsl" "bogus").2.data
      [0, 0, 0, 0] = -1 ∧
    (⟨[2, 2, 2, 3], fun _ => 1, 1, fun _ => 1, ""⟩ : NDImage).data [0, 0, 0, 0] = 1 := by
  refine ⟨rfl, ?_, rfl⟩
  show (1 : ℚ) * -1 = -1
  norm_num

/-- C4 amended: every unrecognized direction or convention name yields a
ConfigurationError carrying the offending argument.  The two field
converters and the embedder check the direction first, before any
computation on the data; `convert_warp` checks `in_type` only after
reorienting and squeezing the data (but before any sign flip), and checks
`out_type` only after the in-type flips have been applied, so with a valid
`in_type` the error for a bad `out_type` arrives after computation on the
data (see the counterexample for the resulting mutation). -/
theorem configuration_error_identifies_argument (img wimg : NDImage) (t : ℚ)
    (fs : Bool) (dir a b : String)
    (hdir : AXIS_MAP.lookup dir = none)
    (ha : WARP_ITK_FLIPS.lookup a = none)
    (hb : WARP_ITK_FLIPS.lookup b = none)
    (hv : convert_warp_validate wimg.shape = none)
    (ht : 3 ≤ (squeezeList wimg.shape).getLastD 0) :
    field_maps_to_displacement_maps img t dir = .error (.configurationError dir) ∧
    displacement_maps_to_field_maps img t dir fs = .error (.configurationError dir) ∧
    (displacement_map_to_field img dir b).1 = .error (.configurationError dir) ∧
    (convert_warp wimg a b).1 =
      .error (.configurationError ("Input type " ++ a ++ " not recognized")) ∧
    (convert_warp wimg "itk" b).1 =
      .error (.configurationError ("Output type " ++ b ++ " not recognized")) := by
  refine ⟨?_, ?_, ?_, ?_, ?_⟩
  · simp [field_maps_to_displacement_maps, hdir]
  · simp [displacement_maps_to_field_maps, hdir]
  · simp [displacement_map_to_field, hdir]
  · simp [convert_warp, hv, ha]
  · have hitk : WARP_ITK_FLIPS.lookup "itk" = some (fun _ => (1 : ℚ)) := rfl
    simp only [List.getLastD_eq_getLast?] at ht
    simp [convert_warp, hv, hb, hitk, applyFlips_of_le _ ht]

theorem configuration_error_identifies_argument_witness :
    field_maps_to_displacement_maps ⟨[2, 2, 2], fun _ => 3, 1, fun _ => 1, ""⟩ 1 "q" =
      .error (.configurationError "q") ∧
    displacement_maps_to_field_maps ⟨[2, 2, 2], fun _ => 3, 1, fun _ => 1, ""⟩ 1 "q" false =
      .error (.configurationError "q") ∧
    (displacement_map_to_field ⟨[2, 2, 2], fun _ => 3, 1, fun _ => 1, ""⟩ "q" "bar").1 =
      .error (.configurationError "q") ∧
    (convert_warp ⟨[2, 2, 2, 3], fun _ => 1, 1, fun _ => 1, ""⟩ "foo" "bar").1 =
      .error (.configurationError "Input type foo not recognized") ∧
    (convert_warp ⟨[2, 2, 2, 3], fun _ => 1, 1, fun _ => 1, ""⟩ "itk" "bar").1 =
      .error (.configurationError "Output type bar not recognized") :=
  configuration_error_identifies_argument
    ⟨[2, 2, 2], fun _ => 3, 1, fun _ => 1, ""⟩
    ⟨[2, 2, 2, 3], fun _ => 1, 1, fun _ => 1, ""⟩
    1 false "q" "foo" "bar" rfl rfl rfl rfl (by decide)

/-- C9: the 5D branch of `convert_warp`'s shape validation never inspects
the trailing axis size: every 5D shape whose 4th axis has size greater than
1 passes validation, whatever the last axis size is (first conjunct, for
all sizes), and such a warp is then fully processed: a (2,2,2,2,5) warp
with trailing size 5 converts without any error (second conjunct). -/
theorem convert_warp_5d_validation_skips_trailing_check
    (s0 s1 s2 s3 s4 : ℕ) (h : 1 < s3) :
    convert_warp_validate [s0, s1, s2, s3, s4] = none ∧
    resOk (convert_warp ⟨[2, 2, 2, 2, 5], fun _ => 0, 1, fun _ => 1, ""⟩
      "itk" "itk").1 = true := by
  constructor
  · have h1 : s3 ≠ 1 := by omega
    simp [convert_warp_validate, List.getD, h1]
  · rfl

theorem convert_warp_5d_validation_skips_trailing_check_witness :
    convert_warp_validate [7, 7, 7, 2, 9] = none ∧
    resOk (convert_warp ⟨[2, 2, 2, 2, 5], fun _ => 0, 1, fun _ => 1, ""⟩
      "itk" "itk").1 = true :=
  convert_warp_5d_validation_skips_trailing_check 7 7 7 2 9 (by decide)

/-- C10: `AXIS_MAP` carries twelve keys, and for each letter pair the voxel
form and the physical form resolve to the same axis code, so the two field
converters and the embedder behave identically on them: substituting "i"
for "x", "j" for "y", "k" for "z" (and likewise for the minus-signed forms)
leaves each call's result unchanged, for every image, readout time,
flip-sign flag and output format. -/
theorem voxel_and_physical_axis_names_agree (img : NDImage) (t : ℚ) (fs : Bool)
    (fmt : String) :
    (field_maps_to_displacement_maps img t "i" =
        field_maps_to_displacement_maps img t "x" ∧
      field_maps_to_displacement_maps img t "j" =
        field_maps_to_displacement_maps img t "y" ∧
      field_maps_to_displacement_maps img t "k" =
        field_maps_to_displacement_maps img t "z" ∧
      field_maps_to_displacement_maps img t "i-" =
        field_maps_to_displacement_maps img t "x-" ∧
      field_maps_to_displacement_maps img t "j-" =
        field_maps_to_displacement_maps img t "y-" ∧
      field_maps_to_displacement_maps img t "k-" =
        field_maps_to_displacement_maps img t "z-") ∧
    (displacement_maps_to_field_maps img t "i" fs =
        displacement_maps_to_field_maps img t "x" fs ∧
      displacement_maps_to_field_maps img t "j" fs =
        displacement_maps_to_field_maps img t "y" fs ∧
      displacement_maps_to_field_maps img t "k" fs =
        displacement_maps_to_field_maps img t "z" fs ∧
      displacement_maps_to_field_maps img t "i-" fs =
        displacement_maps_to_field_maps img t "x-" fs ∧
      displacement_maps_to_field_maps img t "j-" fs =
        displacement_maps_to_field_maps img t "y-" fs ∧
      displacement_maps_to_field_maps img t "k-" fs =
        displacement_maps_to_field_maps img t "z-" fs) ∧
    (displacement_map_to_field img "i" fmt = displacement_map_to_field img "x" fmt ∧
      displacement_map_to_field img "j" fmt = displacement_map_to_field img "y" fmt ∧
      displacement_map_to_field img "k" fmt = displacement_map_to_field img "z" fmt ∧
      displacement_map_to_field img "i-" fmt = displacement_map_to_field img "x-" fmt ∧
      displacement_map_to_field img "j-" fmt = displacement_map_to_field img "y-" fmt ∧
      displacement_map_to_field img "k-" fmt = displacement_map_to_field img "z-" fmt) := by
  exact ⟨⟨rfl, rfl, rfl, rfl, rfl, rfl⟩, ⟨rfl, rfl, rfl, rfl, rfl, rfl⟩,
    ⟨rfl, rfl, rfl, rfl, rfl, rfl⟩⟩

/-- C5: `field_maps_to_displacement_maps` multiplies every sample by
`readoutTime * voxelSize(a) * polarity(direction) * lpsCorrection(a)`,
where `a` is the axis resolved from the direction, the polarity is -1
exactly when the direction string carries a minus sign, and the LPS
correction is -1 for axes 0 (x) and 1 (y) and +1 for axis 2 (z).  In
particular (second conjunct) a constant 10 Hz field map with voxel size
2 mm on axis 1, direction "j-" and readout time 0.05 s yields a constant
1.0 mm displacement map. -/
theorem field_to_displacement_scale (img : NDImage) (t : ℚ) (dir : String)
    (a : ℕ) (idx : List ℕ) (h : AXIS_MAP.lookup dir = some a) :
    (field_maps_to_displacement_maps img t dir).map (fun o => o.data idx) =
      .ok (img.data idx *
        (t * img.zooms a *
          (if dir.data.contains (Char.ofNat 45) then -1 else 1) *
          (if a = 0 ∨ a = 1 then -1 else 1))) ∧
    (field_maps_to_displacement_maps ⟨[2, 2, 2], fun _ => 10, 1, fun _ => 2, ""⟩
        (1 / 20) "j-").map (fun o => o.data idx) = .ok 1 := by
  constructor
  · simp only [field_maps_to_displacement_maps, h, Except.map]
    rw [Except.ok.injEq]
    by_cases hm : dir.data.contains (Char.ofNat 45) = true <;>
      by_cases ha01 : a = 0 ∨ a = 1 <;> simp [hm, ha01] <;> ring_nf
  · show Except.ok ((10 : ℚ) * (1 / 20) * -(-2)) = Except.ok 1
    norm_num

theorem field_to_displacement_scale_witness :
    (field_maps_to_displacement_maps ⟨[2, 2, 2], fun _ => 7, 1, fun _ => 3, ""⟩
        2 "x").map (fun o => o.data [0, 0, 0]) = .ok ((7 : ℚ) * (2 * 3 * 1 * -1)) ∧
    (field_maps_to_displacement_maps ⟨[2, 2, 2], fun _ => 10, 1, fun _ => 2, ""⟩
        (1 / 20) "j-").map (fun o => o.data [0, 0, 0]) = .ok 1 :=
  field_to_displacement_scale ⟨[2, 2, 2], fun _ => 7, 1, fun _ => 3, ""⟩
    2 "x" 0 [0, 0, 0] rfl

/-- C8 counterexample: the claim says `convert_warp` leaves its input
unchanged.  For an input already in RAS orientation the sign flips are
in-place writes through a view of the input's own (cached) array: after a
successful itk->fsl conversion the input's exposed sample at component 0
has been negated from 5 to -5. -/
theorem convert_warp_mutates_ras_input :
    resOk (convert_warp ⟨[2, 2, 2, 3], fun _ => 5, 1, fun _ => 1, ""⟩ "itk" "fsl").1 = true ∧
    (convert_warp ⟨[2, 2, 2, 3], fun _ => 5, 1, fun _ => 1, ""⟩ "itk" "fsl").2.data
      [0, 0, 0, 0] = -5 ∧
    (⟨[2, 2, 2, 3], fun _ => 5, 1, fun _ => 1, ""⟩ : NDImage).data [0, 0, 0, 0] = 5 := by
  refine ⟨rfl, ?_, rfl⟩
  show (5 : ℚ) * 1 * -1 = -5
  norm_num

/-- C8 amended: for an input warp already in RAS orientation (4D, trailing
axis 3, no singleton axes, so the squeezed view has the input's own
layout), `convert_warp in_warp A B` succeeds, leaves the input's affine
unchanged, but mutates the input's exposed data: afterwards each sample of
component `c` equals the original sample multiplied by the product of the
`A` and `B` sign triples at `c` (so the input survives only when the two
triples coincide, e.g. itk->itk or ants->afni). -/
theorem convert_warp_ras_mutation_formula
    (s0 s1 s2 : ℕ) (h0 : 2 ≤ s0) (h1 : 2 ≤ s1) (h2 : 2 ≤ s2)
    (d : List ℕ → ℚ) (aff : Matrix (Fin 4) (Fin 4) ℚ) (z : ℕ → ℚ) (it a b : String)
    (fa fb : ℕ → ℚ) (ha : WARP_ITK_FLIPS.lookup a = some fa)
    (hb : WARP_ITK_FLIPS.lookup b = some fb)
    (i0 i1 i2 c : ℕ) (hc : c < 3) :
    resOk (convert_warp ⟨[s0, s1, s2, 3], d, aff, z, it⟩ a b).1 = true ∧
    (convert_warp ⟨[s0, s1, s2, 3], d, aff, z, it⟩ a b).2.affine = aff ∧
    (convert_warp ⟨[s0, s1, s2, 3], d, aff, z, it⟩ a b).2.data [i0, i1, i2, c] =
      d [i0, i1, i2, c] * fa c * fb c := by
  have hns : ∀ x ∈ [s0, s1, s2, 3], x ≠ 1 := by
    intro x hx
    simp at hx
    rcases hx with h | h | h | h <;> omega
  have hsq : squeezeList [s0, s1, s2, 3] = [s0, s1, s2, 3] :=
    squeezeList_no_singleton _ hns
  have hv : convert_warp_validate [s0, s1, s2, 3] = none := rfl
  have htr : ([s0, s1, s2, 3] : List ℕ).getLastD 0 = 3 := rfl
  have htr' : (([s0, s1, s2, 3] : List ℕ).getLast?).getD 0 = 3 := rfl
  have hflips : ∀ (f : ℕ → ℚ) (dd : List ℕ → ℚ),
      applyFlips 3 f dd =
        (updLast (updLast (updLast dd 0 (f 0)) 1 (f 1)) 2 (f 2), none) :=
    fun f dd => applyFlips_of_le 3 (by omega) f dd
  have hsqi : squeezeIdx [s0, s1, s2, 3] [i0, i1, i2, c] = [i0, i1, i2, c] :=
    squeezeIdx_no_singleton _ _ hns (by simp)
  have husq : unsqueezeIdx [s0, s1, s2, 3] [i0, i1, i2, c] = [i0, i1, i2, c] :=
    unsqueezeIdx_no_singleton _ _ hns (by simp)
  have hlast : List.getLastD [i0, i1, i2, c] 0 = c := rfl
  simp only [convert_warp, hv, hsq, htr, htr', ha, hb, hflips]
  refine ⟨rfl, rfl, ?_⟩
  simp only [viewWriteBack, hsqi, updLast, hlast, husq]
  interval_cases c <;> simp

/-- C7 counterexample: the claim says the embedding yields a volume with
one extra trailing axis of size 3 for every scalar displacement map.  For
the single-voxel map of shape (1,1,1) the embedded (1,1,1,3) field is
handed to `convert_warp`, whose `squeeze()` removes every singleton axis:
the returned image has shape (3,), not (1,1,1,3). -/
theorem displacement_map_to_field_squeezes_singleton :
    ((displacement_map_to_field ⟨[1, 1, 1], fun _ => 5, 1, fun _ => 1, ""⟩
        "y" "itk").1).map NDImage.shape = .ok [3] := by
  exact rfl

/-- C7 amended: for a scalar displacement map (3D volume or 4D time
series, the shapes of the data model) none of whose axes is a singleton
(so that `convert_warp`'s squeeze is the identity), embedding with the
default itk format (whose sign triple is the identity) yields a volume of
shape `shape ++ [3]` whose component at the resolved axis code equals the
input samples, whose other two components are zero, and whose header
carries the vector intent tag.  The first three conjuncts cover a 3D map,
the last three a 4D map (its embedded 5D warp passes the rank-5 validation
since its 4th axis is not a singleton). -/
theorem displacement_map_to_field_embeds
    (n0 n1 n2 n3 : ℕ) (h0 : 2 ≤ n0) (h1 : 2 ≤ n1) (h2 : 2 ≤ n2) (h3 : 2 ≤ n3)
    (d : List ℕ → ℚ) (aff : Matrix (Fin 4) (Fin 4) ℚ) (z : ℕ → ℚ) (it : String)
    (axis : String) (a : ℕ) (ha : AXIS_MAP.lookup axis = some a)
    (i0 i1 i2 i3 c : ℕ) (hc : c < 3) :
    ((displacement_map_to_field ⟨[n0, n1, n2], d, aff, z, it⟩ axis "itk").1).map
        NDImage.shape = .ok [n0, n1, n2, 3] ∧
    ((displacement_map_to_field ⟨[n0, n1, n2], d, aff, z, it⟩ axis "itk").1).map
        NDImage.intent = .ok "vector" ∧
    ((displacement_map_to_field ⟨[n0, n1, n2], d, aff, z, it⟩ axis "itk").1).map
        (fun o => o.data [i0, i1, i2, c]) =
      .ok (if c = a then d [i0, i1, i2] else 0) ∧
    ((displacement_map_to_field ⟨[n0, n1, n2, n3], d, aff, z, it⟩ axis "itk").1).map
        NDImage.shape = .ok [n0, n1, n2, n3, 3] ∧
    ((displacement_map_to_field ⟨[n0, n1, n2, n3], d, aff, z, it⟩ axis "itk").1).map
        NDImage.intent = .ok "vector" ∧
    ((displacement_map_to_field ⟨[n0, n1, n2, n3], d, aff, z, it⟩ axis "itk").1).map
        (fun o => o.data [i0, i1, i2, i3, c]) =
      .ok (if c = a then d [i0, i1, i2, i3] else 0) := by
  have hns : ∀ x ∈ [n0, n1, n2, 3], x ≠ 1 := by
    intro x hx
    simp at hx
    rcases hx with h | h | h | h <;> omega
  have hns4 : ∀ x ∈ [n0, n1, n2, n3, 3], x ≠ 1 := by
    intro x hx
    simp at hx
    rcases hx with h | h | h | h | h <;> omega
  have hsq : squeezeList [n0, n1, n2, 3] = [n0, n1, n2, 3] :=
    squeezeList_no_singleton _ hns
  have hsq4 : squeezeList [n0, n1, n2, n3, 3] = [n0, n1, n2, n3, 3] :=
    squeezeList_no_singleton _ hns4
  have hv : convert_warp_validate [n0, n1, n2, 3] = none := rfl
  have hv4 : convert_warp_validate [n0, n1, n2, n3, 3] = none := by
    have hn3 : n3 ≠ 1 := by omega
    simp [convert_warp_validate, List.getD, hn3]
  have htr : ([n0, n1, n2, 3] : List ℕ).getLastD 0 = 3 := rfl
  have htr' : (([n0, n1, n2, 3] : List ℕ).getLast?).getD 0 = 3 := rfl
  have htr4 : ([n0, n1, n2, n3, 3] : List ℕ).getLastD 0 = 3 := rfl
  have htr4' : (([n0, n1, n2, n3, 3] : List ℕ).getLast?).getD 0 = 3 := rfl
  have hitk : WARP_ITK_FLIPS.lookup "itk" = some (fun _ => (1 : ℚ)) := rfl
  have hflips : ∀ (f : ℕ → ℚ) (dd : List ℕ → ℚ),
      applyFlips 3 f dd =
        (updLast (updLast (updLast dd 0 (f 0)) 1 (f 1)) 2 (f 2), none) :=
    fun f dd => applyFlips_of_le 3 (by omega) f dd
  have husq : unsqueezeIdx [n0, n1, n2, 3] [i0, i1, i2, c] = [i0, i1, i2, c] :=
    unsqueezeIdx_no_singleton _ _ hns (by simp)
  have husq4 : unsqueezeIdx [n0, n1, n2, n3, 3] [i0, i1, i2, i3, c] =
      [i0, i1, i2, i3, c] :=
    unsqueezeIdx_no_singleton _ _ hns4 (by simp)
  have hlast : List.getLastD [i0, i1, i2, c] 0 = c := rfl
  have hlast4 : List.getLastD [i0, i1, i2, i3, c] 0 = c := rfl
  simp only [displacement_map_to_field, ha, convert_warp, List.cons_append,
    List.nil_append, hv, hv4, hsq, hsq4, htr, htr', htr4, htr4', hitk, hflips]
  refine ⟨rfl, rfl, ?_, rfl, rfl, ?_⟩ <;>
    interval_cases c <;>
      simp [Except.map, updLast, hlast, hlast4, husq, husq4]

theorem displacement_map_to_field_embeds_witness :
    ((displacement_map_to_field ⟨[2, 2, 2], fun _ => 5, 1, fun _ => 1, ""⟩
        "y" "itk").1).map NDImage.shape = .ok [2, 2, 2, 3] ∧
    ((displacement_map_to_field ⟨[2, 2, 2], fun _ => 5, 1, fun _ => 1, ""⟩
        "y" "itk").1).map NDImage.intent = .ok "vector" ∧
    ((displacement_map_to_field ⟨[2, 2, 2], fun _ => 5, 1, fun _ => 1, ""⟩
        "y" "itk").1).map (fun o => o.data [0, 0, 0, 1]) = .ok 5 ∧
    ((displacement_map_to_field ⟨[2, 2, 2, 4], fun _ => 5, 1, fun _ => 1, ""⟩
        "y" "itk").1).map NDImage.shape = .ok [2, 2, 2, 4, 3] ∧
    ((displacement_map_to_field ⟨[2, 2, 2, 4], fun _ => 5, 1, fun _ => 1, ""⟩
        "y" "itk").1).map NDImage.intent = .ok "vector" ∧
    ((displacement_map_to_field ⟨[2, 2, 2, 4], fun _ => 5, 1, fun _ => 1, ""⟩
        "y" "itk").1).map (fun o => o.data [0, 0, 0, 0, 1]) = .ok 5 :=
  displacement_map_to_field_embeds 2 2 2 4 (by decide) (by decide) (by decide)
    (by decide) (fun _ => 5) 1 (fun _ => 1) "" "y" 1 rfl 0 0 0 0 1 (by decide)

theorem undo_flip_cc (ornt : Ornt) (shape : Fin 3 → ℕ) (r c : Fin 3) :
    undo_flip ornt shape r.castSucc c.castSucc = if c = r then (ornt r).2 else 0 := by
  have hc3 : (c : ℕ) ≠ 3 := by omega
  simp only [undo_flip, Matrix.of_apply, Fin.coe_castSucc, r.isLt, dif_pos, Fin.eta]
  by_cases h : c = r
  · simp [h]
  · simp [hc3, Fin.val_inj, h]

theorem undo_flip_cl (ornt : Ornt) (shape : Fin 3 → ℕ) (r : Fin 3) :
    undo_flip ornt shape r.castSucc (Fin.last 3) =
      (ornt r).2 * centerTrans shape r - centerTrans shape r := by
  have hr3 : (3 : ℕ) ≠ (r : ℕ) := by omega
  simp only [undo_flip, Matrix.of_apply, Fin.coe_castSucc, Fin.val_last, Fin.eta]
  rw [dif_pos r.isLt, if_neg hr3]
  simp

theorem undo_flip_lc (ornt : Ornt) (shape : Fin 3 → ℕ) (c : Fin 3) :
    undo_flip ornt shape (Fin.last 3) c.castSucc = 0 := by
  have hc3 : (c : ℕ) ≠ 3 := by omega
  simp only [undo_flip, Matrix.of_apply, Fin.coe_castSucc, Fin.val_last]
  rw [dif_neg (by omega), if_neg hc3]

theorem undo_flip_ll (ornt : Ornt) (shape : Fin 3 → ℕ) :
    undo_flip ornt shape (Fin.last 3) (Fin.last 3) = 1 := by
  simp only [undo_flip, Matrix.of_apply, Fin.val_last]
  rw [dif_neg (by omega)]
  simp

theorem undo_reorder_cc (ornt : Ornt) (r c : Fin 3) :
    undo_reorder ornt r.castSucc c.castSucc = if (ornt r).1 = c then 1 else 0 := by
  simp only [undo_reorder, Matrix.of_apply, Fin.coe_castSucc, Fin.eta]
  rw [dif_pos r.isLt]
  by_cases h : (ornt r).1 = c
  · simp [h]
  · rw [if_neg (by simpa [Fin.val_inj] using h), if_neg h]

theorem undo_reorder_cl (ornt : Ornt) (r : Fin 3) :
    undo_reorder ornt r.castSucc (Fin.last 3) = 0 := by
  simp only [undo_reorder, Matrix.of_apply, Fin.coe_castSucc, Fin.val_last, Fin.eta]
  rw [dif_pos r.isLt, if_neg (by omega)]

theorem undo_reorder_lc (ornt : Ornt) (c : Fin 3) :
    undo_reorder ornt (Fin.last 3) c.castSucc = 0 := by
  have hc3 : (c : ℕ) ≠ 3 := by omega
  simp only [undo_reorder, Matrix.of_apply, Fin.coe_castSucc, Fin.val_last]
  rw [dif_neg (by omega), if_neg hc3]

theorem undo_reorder_ll (ornt : Ornt) :
    undo_reorder ornt (Fin.last 3) (Fin.last 3) = 1 := by
  simp only [undo_reorder, Matrix.of_apply, Fin.val_last]
  rw [dif_neg (by omega)]
  simp

theorem inv_ornt_aff_cc (ornt : Ornt) (shape : Fin 3 → ℕ) (r c : Fin 3) :
    inv_ornt_aff ornt shape r.castSucc c.castSucc =
      if (ornt r).1 = c then (ornt r).2 else 0 := by
  rw [inv_ornt_aff, Matrix.mul_apply, Fin.sum_univ_castSucc]
  simp only [undo_flip_cc, undo_flip_cl, undo_reorder_cc, undo_reorder_lc,
    mul_zero, add_zero, ite_mul, zero_mul]
  rw [Finset.sum_ite_eq' Finset.univ r fun k => (ornt r).2 * if (ornt k).1 = c then 1 else 0]
  simp [mul_ite]

theorem inv_ornt_aff_cl (ornt : Ornt) (shape : Fin 3 → ℕ) (r : Fin 3) :
    inv_ornt_aff ornt shape r.castSucc (Fin.last 3) =
      (ornt r).2 * centerTrans shape r - centerTrans shape r := by
  rw [inv_ornt_aff, Matrix.mul_apply, Fin.sum_univ_castSucc]
  simp [undo_flip_cc, undo_flip_cl, undo_reorder_cl, undo_reorder_ll]

theorem inv_ornt_aff_lc (ornt : Ornt) (shape : Fin 3 → ℕ) (c : Fin 3) :
    inv_ornt_aff ornt shape (Fin.last 3) c.castSucc = 0 := by
  rw [inv_ornt_aff, Matrix.mul_apply, Fin.sum_univ_castSucc]
  simp [undo_flip_lc, undo_flip_ll, undo_reorder_lc]

theorem inv_ornt_aff_ll (ornt : Ornt) (shape : Fin 3 → ℕ) :
    inv_ornt_aff ornt shape (Fin.last 3) (Fin.last 3) = 1 := by
  rw [inv_ornt_aff, Matrix.mul_apply, Fin.sum_univ_castSucc]
  simp [undo_flip_lc, undo_flip_ll, undo_reorder_ll]

theorem signedPermAffine_cc (p : Equiv.Perm (Fin 3)) (s z t : Fin 3 → ℚ)
    (r c : Fin 3) :
    signedPermAffine p s z t r.castSucc c.castSucc =
      if p c = r then s c * z c else 0 := by
  simp only [signedPermAffine, Matrix.of_apply, Fin.coe_castSucc, r.isLt, c.isLt,
    dif_pos, Fin.eta]

theorem io_orientation_signedPerm (p : Equiv.Perm (Fin 3)) (s z t : Fin 3 → ℚ)
    (hs : ∀ i, s i = 1 ∨ s i = -1) (hz : ∀ i, 0 < z i) :
    io_orientation (signedPermAffine p s z t) = fun i => (p i, s i) := by
  funext i
  have habs : (fun r => |signedPermAffine p s z t r.castSucc i.castSucc|) =
      fun r => if p i = r then z i else 0 := by
    funext r
    rw [signedPermAffine_cc]
    rcases hs i with h | h <;>
      simp [apply_ite abs, h, abs_of_pos (hz i)]
  rw [io_orientation, habs]
  have hmax : argmax3 (fun r => if p i = r then z i else 0) = p i := by
    generalize hpi : p i = k
    fin_cases k <;>
      simp [argmax3, (hz i).le, not_le.mpr (hz i), Fin.ext_iff]
  rw [hmax, signedPermAffine_cc]
  simp only [if_pos rfl]
  rcases hs i with h | h
  · rw [if_neg (by rw [h, one_mul]; exact not_lt.mpr (hz i).le), h]
  · rw [if_pos (by rw [h]; simpa using hz i), h]

theorem ornt_transform_to_ras (p : Equiv.Perm (Fin 3)) (s : Fin 3 → ℚ) :
    ornt_transform (fun i => (p i, s i)) rasOrnt = fun i => (p i, s i) := by
  funext i
  simp only [ornt_transform, rasOrnt]
  generalize hpi : p i = k
  fin_cases k <;> simp

theorem ornt_transform_from_ras (p : Equiv.Perm (Fin 3)) (s : Fin 3 → ℚ) :
    ornt_transform rasOrnt (fun i => (p i, s i)) = fun i => (p.symm i, s (p.symm i)) := by
  funext i
  simp only [ornt_transform, rasOrnt]
  generalize hpi : p.symm i = k
  have hi : i = p k := by rw [← hpi, Equiv.apply_symm_apply]
  subst hi
  simp only [Equiv.symm_apply_apply] at hpi ⊢
  fin_cases k <;> simp [Equiv.apply_eq_iff_eq, Fin.ext_iff]

theorem invPerm_equiv (q : Equiv.Perm (Fin 3)) :
    invPerm (fun k => q k) = fun k => q.symm k := by
  funext k
  simp only [invPerm]
  generalize hqk : q.symm k = m
  have hk : k = q m := by rw [← hqk, Equiv.apply_symm_apply]
  subst hk
  simp only [Equiv.symm_apply_apply] at hqk ⊢
  fin_cases m <;> simp [Equiv.apply_eq_iff_eq, Fin.ext_iff]

theorem inv_ornt_aff_mul_inv (p : Equiv.Perm (Fin 3)) (s : Fin 3 → ℚ)
    (hs : ∀ i, s i = 1 ∨ s i = -1) (shape : Fin 3 → ℕ) :
    inv_ornt_aff (fun i => (p i, s i)) shape *
      inv_ornt_aff (fun i => (p.symm i, s (p.symm i))) (fun k => shape (p.symm k)) = 1 := by
  ext r c
  rw [Matrix.mul_apply]
  induction r using Fin.lastCases with
  | last =>
    rw [Fin.sum_univ_castSucc]
    induction c using Fin.lastCases with
    | last => simp [inv_ornt_aff_lc, inv_ornt_aff_ll, Matrix.one_apply]
    | cast c =>
      simp [inv_ornt_aff_lc, inv_ornt_aff_ll, Matrix.one_apply,
        (Fin.castSucc_lt_last c).ne']
  | cast r =>
    rw [Fin.sum_univ_castSucc]
    induction c using Fin.lastCases with
    | last =>
      simp only [inv_ornt_aff_cc, inv_ornt_aff_cl, inv_ornt_aff_ll, ite_mul, zero_mul]
      rw [Finset.sum_ite_eq Finset.univ (p r)
        (fun k => s r * (s (p.symm k) * centerTrans (fun m => shape (p.symm m)) k -
          centerTrans (fun m => shape (p.symm m)) k))]
      simp only [Finset.mem_univ, if_pos, Equiv.symm_apply_apply, centerTrans,
        Matrix.one_apply, (Fin.castSucc_lt_last r).ne, if_false]
      rcases hs r with h | h <;> rw [h] <;> ring
    | cast c =>
      simp only [inv_ornt_aff_cc, inv_ornt_aff_cl, inv_ornt_aff_lc, ite_mul, zero_mul,
        mul_zero, add_zero]
      rw [Finset.sum_ite_eq Finset.univ (p r)
        (fun k => s r * if (p.symm k) = c then s (p.symm k) else 0)]
      simp only [Finset.mem_univ, if_pos, Equiv.symm_apply_apply, Matrix.one_apply,
        Fin.castSucc_inj]
      by_cases h : r = c
      · subst h
        rcases hs r with h | h <;> simp [h]
      · simp [h]

theorem as_reoriented_roundtrip_core (p : Equiv.Perm (Fin 3)) (s : Fin 3 → ℚ)
    (hs : ∀ i, s i = 1 ∨ s i = -1) (v : Volume) :
    Volume.eqv ((v.as_reoriented fun i => (p i, s i)).as_reoriented
      fun i => (p.symm i, s (p.symm i))) v := by
  have h1 : invPerm p = fun k => p.symm k := invPerm_equiv p
  have h2 : invPerm p.symm = fun k => p k := by
    have h := invPerm_equiv p.symm
    simpa using h
  refine ⟨?_, ?_, ?_⟩
  · funext k
    simp [Volume.as_reoriented, apply_orientation, transposeVol, flipAxes, h1, h2]
  · show (v.affine * inv_ornt_aff (fun i => (p i, s i)) v.shape) *
        inv_ornt_aff (fun i => (p.symm i, s (p.symm i)))
          ((apply_orientation v fun i => (p i, s i)).shape) = v.affine
    have hsh : (apply_orientation v fun i => (p i, s i)).shape =
        fun k => v.shape (p.symm k) := by
      funext k
      simp [apply_orientation, transposeVol, flipAxes, h1]
    rw [hsh, Matrix.mul_assoc, inv_ornt_aff_mul_inv p s hs v.shape, Matrix.mul_one]
  · intro idx hidx
    have hb : ∀ i, idx i < v.shape i := by
      intro i
      have h := hidx i
      simpa [Volume.as_reoriented, apply_orientation, transposeVol, flipAxes,
        h1, h2] using h
    simp only [Volume.as_reoriented, apply_orientation, transposeVol, flipAxes,
      h1, h2, Equiv.symm_apply_apply]
    congr 1
    funext i
    by_cases hsi : s i = -1 <;> simp [hsi]
    have hbi := hb i
    omega

/-- C6: applying the forward RAS transform produced by
`get_ras_orient_transform` and then the inverse transform reproduces the
original image exactly, with identical array contents and identical affine,
for every volume whose affine is an arbitrary axis ordering with arbitrary
axis signs (a signed permutation with positive zooms): both transforms are
pure axis permutations and sign flips, so no information is lost. -/
theorem ras_orient_roundtrip_exact (p : Equiv.Perm (Fin 3)) (s z t : Fin 3 → ℚ)
    (hs : ∀ i, s i = 1 ∨ s i = -1) (hz : ∀ i, 0 < z i)
    (shape : Fin 3 → ℕ) (dat : (Fin 3 → ℕ) → ℚ) :
    Volume.eqv
      ((Volume.as_reoriented
          (Volume.as_reoriented ⟨shape, dat, signedPermAffine p s z t⟩
            (get_ras_orient_transform ⟨shape, dat, signedPermAffine p s z t⟩).1)
          (get_ras_orient_transform ⟨shape, dat, signedPermAffine p s z t⟩).2))
      ⟨shape, dat, signedPermAffine p s z t⟩ := by
  have hio : io_orientation (signedPermAffine p s z t) = fun i => (p i, s i) :=
    io_orientation_signedPerm p s z t hs hz
  have hto : (get_ras_orient_transform ⟨shape, dat, signedPermAffine p s z t⟩).1 =
      fun i => (p i, s i) := by
    simp only [get_ras_orient_transform]
    rw [hio, ornt_transform_to_ras]
  have hfrom : (get_ras_orient_transform ⟨shape, dat, signedPermAffine p s z t⟩).2 =
      fun i => (p.symm i, s (p.symm i)) := by
    simp only [get_ras_orient_transform]
    rw [hio, ornt_transform_from_ras]
  rw [hto, hfrom]
  exact as_reoriented_roundtrip_core p s hs ⟨shape, dat, signedPermAffine p s z t⟩

theorem ras_orient_roundtrip_exact_witness :
    Volume.eqv
      ((Volume.as_reoriented
          (Volume.as_reoriented
            ⟨![2, 3, 4], fun idx => (idx 0 : ℚ) + 10 * idx 1 + 100 * idx 2,
              signedPermAffine (Equiv.swap 0 2) ![1, -1, 1] ![1, 2, 3] ![4, 5, 6]⟩
            (get_ras_orient_transform
              ⟨![2, 3, 4], fun idx => (idx 0 : ℚ) + 10 * idx 1 + 100 * idx 2,
                signedPermAffine (Equiv.swap 0 2) ![1, -1, 1] ![1, 2, 3] ![4, 5, 6]⟩).1)
          (get_ras_orient_transform
            ⟨![2, 3, 4], fun idx => (idx 0 : ℚ) + 10 * idx 1 + 100 * idx 2,
              signedPermAffine (Equiv.swap 0 2) ![1, -1, 1] ![1, 2, 3] ![4, 5, 6]⟩).2))
      ⟨![2, 3, 4], fun idx => (idx 0 : ℚ) + 10 * idx 1 + 100 * idx 2,
        signedPermAffine (Equiv.swap 0 2) ![1, -1, 1] ![1, 2, 3] ![4, 5, 6]⟩ :=
  ras_orient_roundtrip_exact (Equiv.swap 0 2) ![1, -1, 1] ![1, 2, 3] ![4, 5, 6]
    (by intro i; fin_cases i <;> simp) (by intro i; fin_cases i <;> norm_num)
    ![2, 3, 4] (fun idx => (idx 0 : ℚ) + 10 * idx 1 + 100 * idx 2)

theorem convert_warp_ras_mutation_formula_witness :
    resOk (convert_warp ⟨[2, 2, 2, 3], fun _ => 3, 1, fun _ => 1, ""⟩
      "ants" "fsl").1 = true ∧
    (convert_warp ⟨[2, 2, 2, 3], fun _ => 3, 1, fun _ => 1, ""⟩
      "ants" "fsl").2.affine = 1 ∧
    (convert_warp ⟨[2, 2, 2, 3], fun _ => 3, 1, fun _ => 1, ""⟩
      "ants" "fsl").2.data [0, 0, 0, 1] = (3 : ℚ) * -1 * 1 :=
  convert_warp_ras_mutation_formula 2 2 2 (by decide) (by decide) (by decide)
    (fun _ => 3) 1 (fun _ => 1) "" "ants" "fsl"
    (fun c => if c = 0 ∨ c = 1 then -1 else 1) (fun c => if c = 0 then -1 else 1)
    rfl rfl 0 0 0 1 (by decide)
